import Mathlib

/-!
Verification of the sharded S3 traversal engine: a shallow embedding of
src/traverse/sharding.js (shard planning, membership, object filtering) and of
the orchestration in src/traverse/s3-utils.js (paginated per-shard listing and
the parallel shard runner), with theorems settling the specification's claims
about coverage, membership, filtering and orchestration behaviour.

S3 keys and prefixes are embedded as lists of characters; JavaScript's
`key.startsWith(p)` is `p.isPrefixOf key` and `key.substring(p.length)` is
`key.drop p.length` (both agree with JavaScript on strings shorter than `p`).
-/

/-- A shard configuration as built by `generateShardPrefixes` in
src/traverse/sharding.js: the literal S3 listing prefix, the type tag (the
source uses the strings "all", "catch-all" and "explicit"; `keyBelongsToShard`
additionally accepts the legacy tag "alphanum"), the human-readable
description, and the optional list of first characters the shard owns. -/
structure Shard where
  shardPrefix : List Char
  type : String
  description : String
  charRange : Option (List Char)
  deriving DecidableEq, Repr

/-- An S3 object as returned by ListObjectsV2 and consumed by
`filterObjectsByShard`: only `Key` is inspected by the sharding logic. -/
structure S3Object where
  Key : List Char
  Size : Nat
  LastModified : String
  deriving DecidableEq, Repr

/-- sharding.js line 33: the digit characters used for sharding. -/
def digits : List Char := "0123456789".data

/-- sharding.js line 34: the lowercase characters used for sharding. -/
def lowercase : List Char := "abcdefghijklmnopqrstuvwxyz".data

/-- sharding.js line 35: the uppercase characters used for sharding. -/
def uppercase : List Char := "ABCDEFGHIJKLMNOPQRSTUVWXYZ".data

/-- sharding.js line 37: the special characters that get explicit shards. -/
def specialChars : List Char := "_-.".data

/-- sharding.js line 40: all characters sharded on, in source order
(digits, then uppercase, then lowercase, then the special characters). -/
def allChars : List Char := digits ++ uppercase ++ lowercase ++ specialChars

/-- The description string sharding.js line 60 builds for an explicit shard. -/
def explicitDescription (ch : Char) : String :=
  "Files starting with \'" ++ String.mk [ch] ++ "\'"

/-- `generateShardPrefixes` (src/traverse/sharding.js lines 19-67): for
count = 1 a single "all" shard; otherwise a "catch-all" shard first, then one
"explicit" shard per character of `allChars`, each owning exactly that
character, regardless of the requested count. -/
def generateShardPrefixes (basePrefix : List Char) (count : Nat) : List Shard :=
  if count == 1 then
    [{ shardPrefix := basePrefix, type := "all", description := "All files",
       charRange := none }]
  else
    { shardPrefix := basePrefix, type := "catch-all",
      description := "Files starting with other chars (@, +, space, etc.)", charRange := none } ::
    allChars.map fun ch =>
      { shardPrefix := basePrefix ++ [ch], type := "explicit",
        description := explicitDescription ch, charRange := some [ch] }

/-- The character class of the regular expression `[0-9a-zA-Z_.-]` used at
sharding.js lines 108 and 133 (ASCII digits, ASCII letters, underscore, dot,
dash); `Char.isDigit`/`Char.isAlpha` are exactly the ASCII ranges. -/
def isExplicitChar (c : Char) : Bool :=
  c.isDigit || c.isAlpha || c == '_' || c == '.' || c == '-'

/-- `keyBelongsToShard` (src/traverse/sharding.js lines 77-112): false unless
the key starts with the base prefix; an empty remainder belongs to "catch-all"
or "all"; "all" accepts everything; "explicit"/"alphanum" shards test the
remainder's first character against `charRange` (falling back to a literal
prefix test when `charRange` is null); "catch-all" accepts exactly the first
characters outside `[0-9a-zA-Z_.-]`; any other tag is rejected. -/
def keyBelongsToShard (key : List Char) (shard : Shard) (basePrefix : List Char) : Bool :=
  if basePrefix.isPrefixOf key then
    match key.drop basePrefix.length with
    | [] => shard.type == "catch-all" || shard.type == "all"
    | firstChar :: _ =>
      if shard.type == "all" then true
      else if shard.type == "explicit" || shard.type == "alphanum" then
        match shard.charRange with
        | some range => range.contains firstChar
        | none => shard.shardPrefix.isPrefixOf key
      else if shard.type == "catch-all" then !(isExplicitChar firstChar)
      else false
  else false

/-- `filterObjectsByShard` (src/traverse/sharding.js lines 122-140): the empty
batch maps to the empty batch; a "catch-all" shard keeps exactly the objects
whose key remainder after the base prefix is empty or starts outside
`[0-9a-zA-Z_.-]` (the anchored regex of line 133); every other shard returns
the batch unchanged. -/
def filterObjectsByShard (objects : List S3Object) (shard : Shard)
    (basePrefix : List Char) : List S3Object :=
  if objects.isEmpty then []
  else if shard.type == "catch-all" then
    objects.filter fun obj =>
      match obj.Key.drop basePrefix.length with
      | [] => true
      | c :: _ => !(isExplicitChar c)
  else objects

/-! ## Basic reduction lemmas -/

theorem isPrefixOf_append_self (l r : List Char) : l.isPrefixOf (l ++ r) = true := by
  simp [List.isPrefixOf_iff_prefix]

theorem drop_length_append (l r : List Char) : (l ++ r).drop l.length = r := by
  simp

/-- Membership of a key `basePrefix ++ c :: r` in a shard, reduced: the prefix
test succeeds and the remainder's first character is `c`. -/
theorem keyBelongsToShard_append (basePrefix r : List Char) (c : Char) (sh : Shard) :
    keyBelongsToShard (basePrefix ++ c :: r) sh basePrefix =
      (if sh.type == "all" then true
       else if sh.type == "explicit" || sh.type == "alphanum" then
         match sh.charRange with
         | some range => range.contains c
         | none => sh.shardPrefix.isPrefixOf (basePrefix ++ c :: r)
       else if sh.type == "catch-all" then !(isExplicitChar c)
       else false) := by
  rw [keyBelongsToShard, if_pos (by simp [isPrefixOf_append_self]),
    drop_length_append]

theorem countP_contains_single (c : Char) (l : List Char) :
    (l.countP fun x => [x].contains c) = l.count c := by
  induction l with
  | nil => rfl
  | cons a l ih =>
    rw [List.countP_cons, List.count_cons, ih]
    congr 1
    by_cases h : a = c
    · simp [h]
    · have h' : c ≠ a := Ne.symm h
      simp [h, h']

/-- For any requested count other than 1, how many generated shards accept a
key whose remainder starts with `c`: the catch-all contributes 1 exactly when
`c` is outside `[0-9a-zA-Z_.-]`, and the explicit shards contribute the number
of occurrences of `c` in `allChars`. -/
theorem countP_generateShardPrefixes_ne_one (basePrefix r : List Char) (c : Char)
    (count : Nat) (h : count ≠ 1) :
    ((generateShardPrefixes basePrefix count).countP
        fun sh => keyBelongsToShard (basePrefix ++ c :: r) sh basePrefix) =
      (if isExplicitChar c then 0 else 1) + allChars.count c := by
  have hc : (count == 1) = false := beq_eq_false_iff_ne.mpr h
  rw [generateShardPrefixes, if_neg (by simp [hc]), List.countP_cons,
    List.countP_map]
  have hhead : keyBelongsToShard (basePrefix ++ c :: r)
      { shardPrefix := basePrefix, type := "catch-all",
        description := "Files starting with other chars (@, +, space, etc.)", charRange := none }
      basePrefix = !(isExplicitChar c) := by
    rw [keyBelongsToShard_append]
    rfl
  have hmap : ∀ ch ∈ allChars,
      ((fun sh => keyBelongsToShard (basePrefix ++ c :: r) sh basePrefix) ∘
        fun ch => { shardPrefix := basePrefix ++ [ch], type := "explicit",
                    description := explicitDescription ch,
                    charRange := some [ch] : Shard }) ch =
        [ch].contains c := by
    intro ch _
    show keyBelongsToShard (basePrefix ++ c :: r) _ basePrefix = _
    rw [keyBelongsToShard_append]
    rfl
  rw [List.countP_congr fun x hx => by rw [hmap x hx], countP_contains_single,
    hhead]
  cases hb : isExplicitChar c <;> simp [Nat.add_comm]

theorem countP_generateShardPrefixes_one (basePrefix r : List Char) (c : Char) :
    ((generateShardPrefixes basePrefix 1).countP
        fun sh => keyBelongsToShard (basePrefix ++ c :: r) sh basePrefix) = 1 := by
  simp [generateShardPrefixes, List.countP_cons, keyBelongsToShard_append]

/-- The keys of the spec's coverage property: every digit, uppercase and
lowercase letter, and the punctuation `.`, `_`, `-`, `@`, `#`, `$`, `%`, `^`,
`&`, `!` as first character after the base prefix. -/
def coverageChars : List Char := digits ++ uppercase ++ lowercase ++ "._-@#$%^&!".data

theorem coverage_count : ∀ c ∈ coverageChars,
    (if isExplicitChar c then 0 else 1) + allChars.count c = 1 := by decide

/-- C1: for every base prefix, every shard count in {1, 10, 16, 32, 62, 63},
and every key that extends the base prefix with a digit, an ASCII letter, or
one of `. _ - @ # $ % ^ & !`, exactly one descriptor in
`generateShardPrefixes basePrefix count` satisfies `keyBelongsToShard`
(total coverage with no overlap). -/
theorem C1_coverage_exactly_one (basePrefix r : List Char) (count : Nat) (c : Char)
    (hcount : count ∈ [1, 10, 16, 32, 62, 63]) (hc : c ∈ coverageChars) :
    ((generateShardPrefixes basePrefix count).countP
        fun sh => keyBelongsToShard (basePrefix ++ c :: r) sh basePrefix) = 1 := by
  simp only [List.mem_cons, List.not_mem_nil, or_false] at hcount
  rcases hcount with rfl | rfl | rfl | rfl | rfl | rfl
  · exact countP_generateShardPrefixes_one basePrefix r c
  all_goals
    rw [countP_generateShardPrefixes_ne_one basePrefix r c _ (by decide)]
    exact coverage_count c hc

/-- C1 witness: with base prefix `data/`, 16 requested shards and the key
`data/apple.txt`, exactly one generated shard accepts the key. -/
theorem C1_coverage_exactly_one_witness :
    (16 ∈ [1, 10, 16, 32, 62, 63]) ∧ ('a' ∈ coverageChars) ∧
    ((generateShardPrefixes "data/".data 16).countP
        fun sh => keyBelongsToShard ("data/".data ++ 'a' :: "pple.txt".data)
          sh "data/".data) = 1 :=
  ⟨by decide, by decide,
    C1_coverage_exactly_one "data/".data "pple.txt".data 16 'a' (by decide) (by decide)⟩

/-- C2 (code-bug evidence): evaluated on base prefix `data/` and requested
count 16, `generateShardPrefixes` returns 66 descriptors — not the 16 that the
spec's scenario and the repository's own test (sharding.test.js line 123)
state — and the first (catch-all) descriptor rejects `data/.htaccess`
(`.` is owned by an explicit shard), against the claim and the repository's
test "Catch-all: catches dot files" (sharding.test.js line 150); the only
part the code satisfies is that the first descriptor is the catch-all and
that it rejects `data/apple.txt`. -/
theorem C2_sixteen_shards_code_eval :
    (generateShardPrefixes "data/".data 16).length = 66 ∧
    ((generateShardPrefixes "data/".data 16).headD
        { shardPrefix := [], type := "", description := "", charRange := none }).type
      = "catch-all" ∧
    keyBelongsToShard "data/.htaccess".data
      ((generateShardPrefixes "data/".data 16).headD
        { shardPrefix := [], type := "", description := "", charRange := none })
      "data/".data = false ∧
    keyBelongsToShard "data/apple.txt".data
      ((generateShardPrefixes "data/".data 16).headD
        { shardPrefix := [], type := "", description := "", charRange := none })
      "data/".data = false := by
  refine ⟨rfl, rfl, by decide, by decide⟩

/-- C3: for every shard count other than 1 the generator ignores the count and
returns exactly 66 descriptors: the catch-all (prefix = base prefix) first,
then 65 explicit descriptors each owning exactly one character, in the order
digits 0-9, uppercase A-Z, lowercase a-z, `_`, `-`, `.`, each with prefix
equal to the base prefix plus its character. -/
theorem C3_always_66_descriptors (basePrefix : List Char) (count : Nat)
    (h : count ≠ 1) :
    generateShardPrefixes basePrefix count =
      { shardPrefix := basePrefix, type := "catch-all",
        description := "Files starting with other chars (@, +, space, etc.)", charRange := none } ::
      ("0123456789ABCDEFGHIJKLMNOPQRSTUVWXYZabcdefghijklmnopqrstuvwxyz_-.".data.map
        fun ch =>
          { shardPrefix := basePrefix ++ [ch], type := "explicit",
            description := explicitDescription ch, charRange := some [ch] }) ∧
    (generateShardPrefixes basePrefix count).length = 66 := by
  have hc : (count == 1) = false := beq_eq_false_iff_ne.mpr h
  constructor
  · rw [generateShardPrefixes, if_neg (by simp [hc])]
    rfl
  · rw [generateShardPrefixes, if_neg (by simp [hc])]
    rfl

/-- C3 witness: at requested count 16 the generator returns 66 descriptors. -/
theorem C3_always_66_descriptors_witness :
    ((16 : Nat) ≠ 1) ∧ (generateShardPrefixes "data/".data 16).length = 66 :=
  ⟨by decide, (C3_always_66_descriptors "data/".data 16 (by decide)).2⟩

/-- C4: for the generated catch-all descriptor (count > 1): membership is
false when the key does not start with the base prefix; when the remainder is
non-empty it holds exactly when the first character is no digit, no ASCII
letter and none of `_`, `-`, `.`; and the empty remainder belongs to it. -/
theorem C4_catchAll_membership (key basePrefix : List Char) (count : Nat)
    (h : 1 < count) :
    ∃ ca, (generateShardPrefixes basePrefix count).head? = some ca ∧
      (basePrefix.isPrefixOf key = false →
        keyBelongsToShard key ca basePrefix = false) ∧
      (∀ c r, key = basePrefix ++ c :: r →
        (keyBelongsToShard key ca basePrefix = true ↔
          ¬c.isDigit ∧ ¬c.isAlpha ∧ c ∉ (['_', '-', '.'] : List Char))) ∧
      (key = basePrefix → keyBelongsToShard key ca basePrefix = true) := by
  have hc : (count == 1) = false := beq_eq_false_iff_ne.mpr (by omega)
  refine ⟨{ shardPrefix := basePrefix, type := "catch-all",
            description := "Files starting with other chars (@, +, space, etc.)", charRange := none },
          ?_, ?_, ?_, ?_⟩
  · rw [generateShardPrefixes, if_neg (by simp [hc])]
    rfl
  · intro hkey
    rw [keyBelongsToShard, if_neg (by simp [hkey])]
  · intro c r hkr
    subst hkr
    rw [keyBelongsToShard_append]
    show (!(isExplicitChar c)) = true ↔ _
    simp only [isExplicitChar, Bool.not_eq_true', Bool.or_eq_false_iff,
      beq_eq_false_iff_ne, List.mem_cons, List.not_mem_nil, or_false, not_or,
      Bool.not_eq_true]
    tauto
  · intro hkey
    subst hkey
    rw [keyBelongsToShard, if_pos (by simp [List.isPrefixOf_iff_prefix]),
      List.drop_length]
    rfl

/-- C4 witness: for base `data/`, count 16 and key `data/@img`. -/
theorem C4_catchAll_membership_witness :
    (1 < 16) ∧
    ∃ ca, (generateShardPrefixes "data/".data 16).head? = some ca ∧
      ("data/".data.isPrefixOf "data/@img".data = false →
        keyBelongsToShard "data/@img".data ca "data/".data = false) ∧
      (∀ c r, "data/@img".data = "data/".data ++ c :: r →
        (keyBelongsToShard "data/@img".data ca "data/".data = true ↔
          ¬c.isDigit ∧ ¬c.isAlpha ∧ c ∉ (['_', '-', '.'] : List Char))) ∧
      ("data/@img".data = "data/".data →
        keyBelongsToShard "data/@img".data ca "data/".data = true) :=
  ⟨by decide, C4_catchAll_membership "data/@img".data "data/".data 16 (by decide)⟩

/-- C8: count 1 yields the single "all" descriptor with the base prefix, and
every key that starts with the base prefix belongs to it. -/
theorem C8_single_all_shard (basePrefix key : List Char)
    (hk : basePrefix.isPrefixOf key = true) :
    generateShardPrefixes basePrefix 1 =
      [{ shardPrefix := basePrefix, type := "all", description := "All files",
         charRange := none }] ∧
    ∀ sh ∈ generateShardPrefixes basePrefix 1,
      keyBelongsToShard key sh basePrefix = true := by
  refine ⟨rfl, ?_⟩
  intro sh hsh
  simp only [generateShardPrefixes, beq_self_eq_true, if_true, List.mem_singleton]
    at hsh
  subst hsh
  rw [keyBelongsToShard, if_pos (by simp [hk])]
  cases hd : key.drop basePrefix.length
  · rfl
  · rfl

/-- C8 witness: base `data/`, key `data/x`. -/
theorem C8_single_all_shard_witness :
    ("data/".data.isPrefixOf "data/x".data = true) ∧
    (generateShardPrefixes "data/".data 1 =
      [{ shardPrefix := "data/".data, type := "all", description := "All files",
         charRange := none }] ∧
     ∀ sh ∈ generateShardPrefixes "data/".data 1,
       keyBelongsToShard "data/x".data sh "data/".data = true) :=
  ⟨by decide, C8_single_all_shard "data/".data "data/x".data (by decide)⟩

/-- Evaluation of `filterObjectsByShard` on a catch-all shard: it is the
filter by the anchored character-class test, with no base-prefix check. -/
theorem filterObjectsByShard_catchAll (objects : List S3Object) (sh : Shard)
    (basePrefix : List Char) (h : sh.type = "catch-all") :
    filterObjectsByShard objects sh basePrefix =
      objects.filter fun obj =>
        match obj.Key.drop basePrefix.length with
        | [] => true
        | c :: _ => !(isExplicitChar c) := by
  rw [filterObjectsByShard]
  by_cases hobj : objects.isEmpty
  · rw [if_pos hobj, List.isEmpty_iff.mp hobj]
    rfl
  · rw [if_neg hobj, if_pos (by simp [h])]

/-- Evaluation of `filterObjectsByShard` on any non-catch-all shard: the
identity on the batch. -/
theorem filterObjectsByShard_other (objects : List S3Object) (sh : Shard)
    (basePrefix : List Char) (h : sh.type ≠ "catch-all") :
    filterObjectsByShard objects sh basePrefix = objects := by
  rw [filterObjectsByShard]
  by_cases hobj : objects.isEmpty
  · rw [if_pos hobj, List.isEmpty_iff.mp hobj]
  · rw [if_neg hobj, if_neg (by simp [beq_eq_false_iff_ne.mpr h])]

/-- C9: applying the shard object filter twice with the same shard and base
prefix yields the same batch as applying it once, for every shard. -/
theorem C9_filter_idempotent (objects : List S3Object) (sh : Shard)
    (basePrefix : List Char) :
    filterObjectsByShard (filterObjectsByShard objects sh basePrefix) sh basePrefix =
      filterObjectsByShard objects sh basePrefix := by
  by_cases h : sh.type = "catch-all"
  · rw [filterObjectsByShard_catchAll _ _ _ h, filterObjectsByShard_catchAll _ _ _ h,
      List.filter_filter]
    simp
  · rw [filterObjectsByShard_other _ _ _ h, filterObjectsByShard_other _ _ _ h]

/-- C10: shard membership of generated shards depends only on the first
character after the base prefix, not on the rest of the key (path depth). -/
theorem C10_depth_independence (basePrefix r1 r2 : List Char) (c : Char)
    (count : Nat) :
    ∀ sh ∈ generateShardPrefixes basePrefix count,
      keyBelongsToShard (basePrefix ++ c :: r1) sh basePrefix =
        keyBelongsToShard (basePrefix ++ c :: r2) sh basePrefix := by
  intro sh hsh
  rw [generateShardPrefixes] at hsh
  rw [keyBelongsToShard_append, keyBelongsToShard_append]
  by_cases h1 : (count == 1) = true
  · rw [if_pos h1] at hsh
    rw [List.mem_singleton.mp hsh]
    rfl
  · rw [if_neg h1] at hsh
    rcases List.mem_cons.mp hsh with rfl | hmem
    · rfl
    · obtain ⟨ch, _, rfl⟩ := List.mem_map.mp hmem
      rfl

/-- C10 witness: `prefix/a/b/c/d.html` and `prefix/apple.html` get the same
verdict from the shard owning `a`. -/
theorem C10_depth_independence_witness :
    ({ shardPrefix := "prefix/".data ++ ['a'], type := "explicit",
       description := explicitDescription 'a', charRange := some ['a'] : Shard } ∈
      generateShardPrefixes "prefix/".data 32) ∧
    keyBelongsToShard ("prefix/".data ++ 'a' :: "/b/c/d.html".data)
      { shardPrefix := "prefix/".data ++ ['a'], type := "explicit",
        description := explicitDescription 'a', charRange := some ['a'] }
      "prefix/".data =
    keyBelongsToShard ("prefix/".data ++ 'a' :: "pple.html".data)
      { shardPrefix := "prefix/".data ++ ['a'], type := "explicit",
        description := explicitDescription 'a', charRange := some ['a'] }
      "prefix/".data :=
  ⟨by decide,
    C10_depth_independence "prefix/".data "/b/c/d.html".data "pple.html".data 'a' 32
      _ (by decide)⟩

/-! ## The catch-all filter vs the membership oracle (C5) -/

/-- C5 counterexample: with the generated catch-all descriptor for `data/`,
a batch holding an object whose key `x` does not start with the base prefix
is returned unchanged by `filterObjectsByShard` (the remainder computes to
empty, so the object is kept), while `keyBelongsToShard` rejects the key, so
the filter is not the oracle-selected subsequence for every batch. -/
theorem C5_counterexample :
    filterObjectsByShard [{ Key := "x".data, Size := 0, LastModified := "" }]
      ((generateShardPrefixes "data/".data 16).headD
        { shardPrefix := [], type := "", description := "", charRange := none })
      "data/".data ≠
    ([{ Key := "x".data, Size := 0, LastModified := "" }].filter fun o =>
      keyBelongsToShard o.Key
        ((generateShardPrefixes "data/".data 16).headD
          { shardPrefix := [], type := "", description := "", charRange := none })
        "data/".data) := by
  decide

/-- C5 amended: for batches in which every key starts with the base prefix
(what prefix-scoped listing returns), the catch-all filter returns exactly the
subsequence of objects whose keys satisfy the membership oracle. -/
theorem C5_filter_matches_oracle (objects : List S3Object) (sh : Shard)
    (basePrefix : List Char) (hsh : sh.type = "catch-all")
    (hkeys : ∀ o ∈ objects, basePrefix.isPrefixOf o.Key = true) :
    filterObjectsByShard objects sh basePrefix =
      objects.filter fun o => keyBelongsToShard o.Key sh basePrefix := by
  rw [filterObjectsByShard_catchAll _ _ _ hsh]
  apply List.filter_congr
  intro o ho
  rw [keyBelongsToShard, if_pos (by simp [hkeys o ho]), hsh]
  cases hd : o.Key.drop basePrefix.length
  · rfl
  · rfl

/-- C5 witness: a concrete batch under `data/` where the filter and the
oracle agree: `data/@a` is kept, `data/zz` is dropped. -/
theorem C5_filter_matches_oracle_witness :
    ({ shardPrefix := "data/".data, type := "catch-all",
       description := "Files starting with other chars (@, +, space, etc.)",
       charRange := none : Shard }.type = "catch-all") ∧
    filterObjectsByShard
      [{ Key := "data/@a".data, Size := 1, LastModified := "" },
       { Key := "data/zz".data, Size := 2, LastModified := "" }]
      { shardPrefix := "data/".data, type := "catch-all",
        description := "Files starting with other chars (@, +, space, etc.)", charRange := none }
      "data/".data =
    ([{ Key := "data/@a".data, Size := 1, LastModified := "" },
      { Key := "data/zz".data, Size := 2, LastModified := "" }].filter fun o =>
      keyBelongsToShard o.Key
        { shardPrefix := "data/".data, type := "catch-all",
          description := "Files starting with other chars (@, +, space, etc.)", charRange := none }
        "data/".data) :=
  ⟨rfl, C5_filter_matches_oracle _ _ _ rfl (by decide)⟩

/-! ## The orchestration of src/traverse/s3-utils.js

A mock of the storage collaborator: for each listing prefix, the successive
pages the paginated ListObjectsV2 loop receives, each page either the returned
contents or the message of an error thrown by the send; the continuation
token of the source is modelled by the position in the page list. JavaScript
runs the shard workers concurrently on one event loop and every worker only
adds to the shared counters, so `Promise.all` over the workers is modelled by
running them in order. The wall-clock fields (`startTime`, `lastUpdate`,
`duration`) and the throttled advisory `onProgress` callback are outside the
model. -/

abbrev Storage := List Char → List (Except String (List S3Object))

/-- The pagination loop body of `listShardObjects` (src/traverse/s3-utils.js
lines 91-115): walks the shard's pages in order, filters each page with
`filterObjectsByShard`, and returns the filtered batches handed to `onBatch`
together with the error that aborted the loop, if any. -/
def listShardPages (shard : Shard) (basePrefix : List Char) :
    List (Except String (List S3Object)) → List (List S3Object) × Option String
  | [] => ([], none)
  | Except.error e :: _ => ([], some e)
  | Except.ok contents :: rest =>
    let filtered := filterObjectsByShard contents shard basePrefix
    let r := listShardPages shard basePrefix rest
    (filtered :: r.1, r.2)

/-- The total length of the delivered batches: the `totalCount` accumulator of
`listShardObjects`. -/
def sumLens (batches : List (List S3Object)) : Nat := (batches.map List.length).sum

/-- `listShardObjects` (src/traverse/s3-utils.js lines 86-118) as seen by its
caller: the total number of filtered objects, or the thrown error. -/
def listShardObjects (store : Storage) (shard : Shard) (basePrefix : List Char) :
    Except String Nat :=
  match listShardPages shard basePrefix (store shard.shardPrefix) with
  | (batches, none) => Except.ok (sumLens batches)
  | (_, some e) => Except.error e

/-- The shared statistics object of `processShards` (s3-utils.js lines
147-155), without the two wall-clock fields. `activeShards` is incremented
when a worker starts and decremented when it finishes, on the success and on
the failure path. -/
structure Stats where
  totalObjects : Nat
  processedObjects : Nat
  totalShards : Nat
  completedShards : Nat
  activeShards : Int
  deriving DecidableEq, Repr

/-- The payload of the `onShardComplete` callback (s3-utils.js lines 197-221),
without the wall-clock `duration` field. -/
structure ShardEvent where
  shardId : Nat
  objectCount : Nat
  success : Bool
  error : Option String
  deriving DecidableEq, Repr

def initStats : Stats :=
  { totalObjects := 0, processedObjects := 0, totalShards := 0,
    completedShards := 0, activeShards := 0 }

/-- `processShard` (s3-utils.js lines 158-225): bumps totalShards and
activeShards, runs the paginated listing whose onBatch callback adds each
filtered batch to the shard's local count and to the shared counters, then on
success bumps completedShards, releases activeShards and reports success with
the shard's object count; when the listing throws, the batches delivered
before the error keep their effect on the counters, activeShards is released,
and failure is reported with the error message and objectCount 0. -/
def processShard (store : Storage) (basePrefix : List Char) (stats : Stats)
    (shard : Shard) (shardId : Nat) : Stats × ShardEvent :=
  let stats1 : Stats :=
    { stats with totalShards := stats.totalShards + 1,
                 activeShards := stats.activeShards + 1 }
  let r := listShardPages shard basePrefix (store shard.shardPrefix)
  let shardObjectCount := sumLens r.1
  let stats2 : Stats :=
    { stats1 with totalObjects := stats1.totalObjects + shardObjectCount,
                  processedObjects := stats1.processedObjects + shardObjectCount }
  match r.2 with
  | none =>
    ({ stats2 with completedShards := stats2.completedShards + 1,
                   activeShards := stats2.activeShards - 1 },
     { shardId := shardId, objectCount := shardObjectCount, success := true,
       error := none })
  | some e =>
    ({ stats2 with activeShards := stats2.activeShards - 1 },
     { shardId := shardId, objectCount := 0, success := false, error := some e })

/-- The workers launched by `shards.map((shard, index) => processShard(shard,
index + 1))` and awaited by `Promise.all` (s3-utils.js lines 228-232), run in
order (see the section comment). -/
def runShards (store : Storage) (basePrefix : List Char) :
    Stats → Nat → List Shard → Stats × List ShardEvent
  | stats, _, [] => (stats, [])
  | stats, i, shard :: rest =>
    let r := processShard store basePrefix stats shard i
    let rr := runShards store basePrefix r.1 (i + 1) rest
    (rr.1, r.2 :: rr.2)

/-- `processShards` (src/traverse/s3-utils.js lines 132-235): generates the
shards, runs every worker, and returns the final stats together with the
sequence of `onShardComplete` events. -/
def processShards (store : Storage) (basePrefix : List Char) (shardCount : Nat) :
    Stats × List ShardEvent :=
  runShards store basePrefix initStats 1 (generateShardPrefixes basePrefix shardCount)

/-- The completion event a single shard reports, a function of that shard's
own listing only: success with the shard's filtered object count when its
pages end without an error, failure with the thrown message and count 0
otherwise. -/
def shardOutcome (store : Storage) (basePrefix : List Char) (shard : Shard)
    (shardId : Nat) : ShardEvent :=
  match (listShardPages shard basePrefix (store shard.shardPrefix)).2 with
  | none =>
    { shardId := shardId,
      objectCount := sumLens (listShardPages shard basePrefix (store shard.shardPrefix)).1,
      success := true, error := none }
  | some e =>
    { shardId := shardId, objectCount := 0, success := false, error := some e }

/-- The expected event sequence: one `shardOutcome` per shard, ids counting up. -/
def shardOutcomes (store : Storage) (basePrefix : List Char) :
    Nat → List Shard → List ShardEvent
  | _, [] => []
  | i, shard :: rest =>
    shardOutcome store basePrefix shard i ::
      shardOutcomes store basePrefix (i + 1) rest

theorem processShard_event (store : Storage) (basePrefix : List Char)
    (stats : Stats) (shard : Shard) (i : Nat) :
    (processShard store basePrefix stats shard i).2 =
      shardOutcome store basePrefix shard i := by
  cases h : (listShardPages shard basePrefix (store shard.shardPrefix)).2 <;>
    simp [processShard, shardOutcome, h]

theorem processShard_activeShards (store : Storage) (basePrefix : List Char)
    (stats : Stats) (shard : Shard) (i : Nat) :
    (processShard store basePrefix stats shard i).1.activeShards =
      stats.activeShards := by
  cases h : (listShardPages shard basePrefix (store shard.shardPrefix)).2 <;>
    simp [processShard, h]

theorem processShard_totalObjects (store : Storage) (basePrefix : List Char)
    (stats : Stats) (shard : Shard) (i : Nat) :
    (processShard store basePrefix stats shard i).1.totalObjects =
      stats.totalObjects +
        sumLens (listShardPages shard basePrefix (store shard.shardPrefix)).1 := by
  cases h : (listShardPages shard basePrefix (store shard.shardPrefix)).2 <;>
    simp [processShard, h]

theorem runShards_events (store : Storage) (basePrefix : List Char) :
    ∀ (l : List Shard) (stats : Stats) (i : Nat),
      (runShards store basePrefix stats i l).2 =
        shardOutcomes store basePrefix i l := by
  intro l
  induction l with
  | nil => intro stats i; rfl
  | cons sh rest ih =>
    intro stats i
    simp [runShards, shardOutcomes, ih, processShard_event]

theorem runShards_activeShards (store : Storage) (basePrefix : List Char) :
    ∀ (l : List Shard) (stats : Stats) (i : Nat),
      (runShards store basePrefix stats i l).1.activeShards =
        stats.activeShards := by
  intro l
  induction l with
  | nil => intro stats i; rfl
  | cons sh rest ih =>
    intro stats i
    simp [runShards, ih, processShard_activeShards]

theorem runShards_totalObjects (store : Storage) (basePrefix : List Char) :
    ∀ (l : List Shard) (stats : Stats) (i : Nat),
      (runShards store basePrefix stats i l).1.totalObjects =
        stats.totalObjects +
          (l.map fun sh =>
            sumLens (listShardPages sh basePrefix (store sh.shardPrefix)).1).sum := by
  intro l
  induction l with
  | nil => intro stats i; simp [runShards]
  | cons sh rest ih =>
    intro stats i
    simp [runShards, ih, processShard_totalObjects]
    omega

theorem shardOutcomes_length (store : Storage) (basePrefix : List Char) :
    ∀ (l : List Shard) (i : Nat),
      (shardOutcomes store basePrefix i l).length = l.length := by
  intro l
  induction l with
  | nil => intro i; rfl
  | cons sh rest ih => intro i; simp [shardOutcomes, ih]

theorem shardOutcomes_flags (store : Storage) (basePrefix : List Char) :
    ∀ (l : List Shard) (i : Nat), ∀ ev ∈ shardOutcomes store basePrefix i l,
      (ev.success = true → ev.error = none) ∧
      (ev.success = false → ∃ e, ev.error = some e) := by
  intro l
  induction l with
  | nil => intro i ev hev; simp [shardOutcomes] at hev
  | cons sh rest ih =>
    intro i ev hev
    rw [shardOutcomes, List.mem_cons] at hev
    rcases hev with rfl | hmem
    · cases h : (listShardPages sh basePrefix (store sh.shardPrefix)).2 <;>
        simp [shardOutcome, h]
    · exact ih (i + 1) ev hmem

/-- C6: the orchestration reports in order exactly one completion event per
generated shard descriptor, each event a function of that shard's own listing
alone (so a failing shard changes nothing for its siblings): success with no
error when the shard's listing finishes, failure with the thrown error message
when it throws; every worker, failing or not, releases the active-shard
counter, which ends at 0, and the total function `processShards` returns after
all workers were run. -/
theorem C6_onShardComplete_per_shard (store : Storage) (basePrefix : List Char)
    (shardCount : Nat) :
    (processShards store basePrefix shardCount).2 =
      shardOutcomes store basePrefix 1 (generateShardPrefixes basePrefix shardCount) ∧
    (processShards store basePrefix shardCount).2.length =
      (generateShardPrefixes basePrefix shardCount).length ∧
    (∀ ev ∈ (processShards store basePrefix shardCount).2,
      (ev.success = true → ev.error = none) ∧
      (ev.success = false → ∃ e, ev.error = some e)) ∧
    (processShards store basePrefix shardCount).1.activeShards = 0 := by
  have hev : (processShards store basePrefix shardCount).2 =
      shardOutcomes store basePrefix 1 (generateShardPrefixes basePrefix shardCount) :=
    runShards_events store basePrefix _ initStats 1
  refine ⟨hev, ?_, ?_, ?_⟩
  · rw [hev, shardOutcomes_length]
  · rw [hev]
    exact shardOutcomes_flags store basePrefix _ 1
  · exact runShards_activeShards store basePrefix _ initStats 1

/-- A page list that ends without an error consists of `ok` pages whose
filtered lengths sum to the delivered batch total. -/
theorem sumLens_listShardPages_of_ok (shard : Shard) (basePrefix : List Char) :
    ∀ pages, (listShardPages shard basePrefix pages).2 = none →
      sumLens (listShardPages shard basePrefix pages).1 =
        (pages.map fun page =>
          match page with
          | Except.ok contents =>
            (filterObjectsByShard contents shard basePrefix).length
          | Except.error _ => 0).sum := by
  intro pages
  induction pages with
  | nil => intro _; rfl
  | cons p rest ih =>
    cases p with
    | error e => intro h; simp [listShardPages] at h
    | ok contents =>
      intro h
      have h2 : (listShardPages shard basePrefix rest).2 = none := by
        simpa [listShardPages] using h
      simp [listShardPages, sumLens, ih h2]
      simp [sumLens] at ih
      simp [ih h2]

/-- C7: after a run in which no shard's listing throws, the reported
`totalObjects` equals the sum, over every storage list call made by every
shard, of the number of objects surviving `filterObjectsByShard` on that
call's page. -/
theorem C7_totalObjects_exact (store : Storage) (basePrefix : List Char)
    (shardCount : Nat)
    (hok : ∀ sh ∈ generateShardPrefixes basePrefix shardCount,
      (listShardPages sh basePrefix (store sh.shardPrefix)).2 = none) :
    (processShards store basePrefix shardCount).1.totalObjects =
      ((generateShardPrefixes basePrefix shardCount).map fun sh =>
        ((store sh.shardPrefix).map fun page =>
          match page with
          | Except.ok contents =>
            (filterObjectsByShard contents sh basePrefix).length
          | Except.error _ => 0).sum).sum := by
  rw [processShards, runShards_totalObjects]
  rw [List.map_congr_left fun sh hs =>
    sumLens_listShardPages_of_ok sh basePrefix _ (hok sh hs)]
  simp [initStats]

/-- A sample storage for the C7 witness: one page with one object under the
catch-all's unnarrowed prefix `p/`, nothing under any narrowed prefix. -/
def sampleStore : Storage := fun p =>
  if p = "p/".data then
    [Except.ok [{ Key := "p/@a".data, Size := 1, LastModified := "" }]]
  else []

/-- C7 witness: a fully successful run over `sampleStore` with base `p/` and
requested count 16 reports exactly the filtered page sums. -/
theorem C7_totalObjects_exact_witness :
    (∀ sh ∈ generateShardPrefixes "p/".data 16,
      (listShardPages sh "p/".data (sampleStore sh.shardPrefix)).2 = none) ∧
    (processShards sampleStore "p/".data 16).1.totalObjects =
      ((generateShardPrefixes "p/".data 16).map fun sh =>
        ((sampleStore sh.shardPrefix).map fun page =>
          match page with
          | Except.ok contents =>
            (filterObjectsByShard contents sh "p/".data).length
          | Except.error _ => 0).sum).sum :=
  ⟨by decide, C7_totalObjects_exact sampleStore "p/".data 16 (by decide)⟩
